import Mathlib

/-!
Verification of the RemoDash terminal subsystem.

This file gives a shallow embedding, in Lean 4, of the terminal multiplexer
of the RemoDash repository.  The subsystem exists in two variants in the
source tree:

* `src/server.py` (the monolithic application; namespace `Server` below), and
* `src/core/api/terminal.py` together with `src/core/api/auth.py`
  (the modular variant; namespace `CoreApi` below).

Where the two variants agree (history capping of read-loop chunks, the
broadcast fan-out, the session-key store, close()) a single shared definition
is used.  Where they diverge (shell-spawn fallback handling, the termination
notice, the per-session gateway's cleanup) both are embedded.

Modelling conventions:

* Python `time.time()` floats are modelled as `ℤ` (integer seconds; no
  claim depends on fractional instants); a call that reads the
  clock several times in one function body is modelled with a single
  instant `now` (the clock is nondecreasing and nothing in the modelled
  code distinguishes the sub-call instants).
* Python dicts are association lists (`List (String × α)`): `get` returns
  the first binding, assignment updates the first binding in place or
  appends, deletion filters the key out.  Python's insertion order is the
  list order.
* WebSocket observers are identified by `Nat` ids; `await ws.send_text`
  success/failure is an oracle `ok : Nat → Bool` (a send either returns or
  raises; the broadcast code catches the exception).
* `json.dumps({"type": "output", "data": text})` is modelled by the record
  `WireMsg` (the serialisation is injective in the payload; its exact
  character string is irrelevant to every claim).
* History entries are tagged (`HEntry`) so that a synthetic termination
  notice or spawn diagnostic is distinguishable, as an event, from a shell
  output chunk that happens to contain the same characters.  The text of an
  entry is `HEntry.text`.
* Exceptions that the Python code catches and swallows on the spot (bare
  `except: pass`, `except Exception as e: print(...)`) are modelled by the
  function simply not performing the failed effect; exceptions that
  propagate are modelled with `Except`.
-/

namespace RemoDash

/-- A JSON value as produced by Python's `json.loads`. -/
inductive Json where
| null : Json
| jbool (b : Bool) : Json
| num (q : ℚ) : Json
| str (s : String) : Json
| arr (elts : List Json) : Json
| obj (fields : List (String × Json)) : Json

/-- The wire form of `json.dumps({"type": t, "data": d})` for output frames. -/
structure WireMsg where
  mtype : String
  mdata : String
deriving DecidableEq

/-- A history buffer entry, tagged with its provenance: a shell output chunk
(`chunk`), the synthetic `"[Process terminated]"` notice appended by the
read loop (`notice`), or the spawn-failure diagnostic (`diag`). -/
inductive HEntry where
| chunk (t : String) : HEntry
| notice : HEntry
| diag (t : String) : HEntry
deriving DecidableEq

/-- The character content of a history entry, as stored in the Python list.
`notice` carries the constant string appended by
`core/api/terminal.py::_read_loop`. -/
def HEntry.text : HEntry → String
| .chunk t => t
| .notice => "\r\n\x1b[1;31m[Process terminated]\x1b[0m\r\n"
| .diag t => t

/-- The mutable state of one `TerminalSession` (`server.py` and
`core/api/terminal.py` share the same fields).  `written` records the bytes
forwarded to the pseudo-terminal by `write_input`; `proc` is the command of
the spawned shell when one was spawned; `cols`/`rows` hold whatever values
`resize` stored last (Python stores them untyped, hence `Json`). -/
structure SessionState where
  history : List HEntry
  subscribers : List Nat
  closed : Bool
  written : List String
  proc : Option String
  readerStarted : Bool
  cols : Json
  rows : Json

/-- A freshly constructed session, before `_start` runs: empty history, no
observers, not closed, default 80×24 geometry. -/
def freshSession : SessionState :=
  { history := [], subscribers := [], closed := false, written := [],
    proc := none, readerStarted := false,
    cols := Json.num 80, rows := Json.num 24 }

/-- Model of `TerminalSession.close`: sets the closed flag and terminates/releases OS
resources.  `process.terminate()` on a dead process does not raise, and the
`os.close` of the master fd is wrapped in `try/except` in both variants, so
`close` never raises: it is a total function. -/
def close (s : SessionState) : SessionState :=
  { s with closed := true }

/-- Python set `add`: a no-op when the element is present, else insertion. -/
def setAdd (l : List Nat) (w : Nat) : List Nat :=
  if w ∈ l then l else l ++ [w]

/-! ### The session-key store (`SESSION_KEYS`)

`src/server.py::create_session_token` / `verify_token` and their identical
copies in `src/core/api/auth.py`. -/

/-- The `SESSION_KEYS` dict: token string → expiry timestamp. -/
abbrev KeyStore := List (String × ℤ)

/-- Python `dict.get`: the first binding of the key, if any. -/
def storeGet (s : KeyStore) (k : String) : Option ℤ :=
  (List.find? (fun p => p.1 = k) s).map Prod.snd

/-- Python `d[k] = v`: replace the binding in place if present, else append
(insertion order preserved). -/
def storeSet : KeyStore → String → ℤ → KeyStore
| [], k, v => [(k, v)]
| (k', v') :: rest, k, v =>
    if k' = k then (k, v) :: rest else (k', v') :: storeSet rest k v

/-- Model of `create_session_token` (`server.py` lines 633–645): store a fresh random
token with expiry `now + 60`, then lazily delete every entry whose expiry is
strictly in the past (`time.time() > exp`), and return the token. -/
def createSessionToken (store : KeyStore) (freshKey : String) (now : ℤ) :
    KeyStore × String :=
  let s1 := storeSet store freshKey (now + 60)
  (List.filter (fun p => ¬ (now > p.2)) s1, freshKey)

/-- Python truthiness of an optional string (`if key:`, `if not token:`):
`None` and the empty string are falsy. -/
def pyTruthy : Option String → Bool
| none => false
| some s => s ≠ ""

/-- The session-key test of the WebSocket endpoints
(`server.py::terminal_stream_ws`, lines 1890–1894): the connection is
refused when `not expiry or time.time() > expiry`; `not expiry` is Python
truthiness, so a `0.0` expiry is also refused. -/
def wsKeyValid (store : KeyStore) (k : String) (now : ℤ) : Bool :=
  match storeGet store k with
  | none => false
  | some e => (¬ (e = 0) : Bool) && (¬ (now > e) : Bool)

/-- The session-key branch of the HTTP dependency `verify_token`
(`server.py` lines 609–614, `core/api/auth.py` lines 31–36): it only reads
`SESSION_KEYS.get(key)` and compares, returning the verdict; the store is
returned unchanged because the code performs no write. -/
def verifyTokenKeyBranch (store : KeyStore) (k : String) (now : ℤ) :
    Bool × KeyStore :=
  (match storeGet store k with
   | some e => (¬ (e = 0) : Bool) && (now < e : Bool)
   | none => false,
   store)

/-- Iterated validation: `n + 1` successive calls of the key branch of `verify_token`, each one
running on the store left behind by the previous call. -/
def repeatValidate (store : KeyStore) (k : String) (now : ℤ) : ℕ → Bool × KeyStore
| 0 => verifyTokenKeyBranch store k now
| n + 1 =>
    let r := repeatValidate store k now n
    verifyTokenKeyBranch r.2 k now

/-! ### The per-session WebSocket gate (`server.py::terminal_stream_ws`, lines 1886–1903) -/

/-- The long-lived-token test of the WebSocket endpoints: refused when
`not REMODASH_TOKEN or not token or token != REMODASH_TOKEN`.  At this
endpoint the token arrives as the `token` query parameter only (the
function reads no header). -/
def wsTokenOk (remodashToken token : Option String) : Bool :=
  pyTruthy remodashToken && pyTruthy token && (token = remodashToken : Bool)

/-- The authentication decision of `terminal_stream_ws`: the no-auth flag
short-circuits; otherwise, when a (truthy) `key` query parameter is present
the session key alone is judged, and only when no key is present is the
long-lived token consulted. -/
def wsAuthPass (noAuth : Bool) (key token : Option String) (store : KeyStore)
    (remodashToken : Option String) (now : ℤ) : Bool :=
  if noAuth then true
  else if pyTruthy key then wsKeyValid store (key.getD "") now
  else wsTokenOk remodashToken token

/-- Outcome of the pre-accept phase of `terminal_stream_ws`. -/
inductive WsOutcome where
| refused (code : ℕ) : WsOutcome
| accepted : WsOutcome
deriving DecidableEq

/-- The full pre-accept phase of `terminal_stream_ws`: authentication
failure closes the transport with code 4003; an unknown session id closes
it with code 4004; otherwise the connection is accepted. -/
def terminalStreamGate (noAuth : Bool) (key token : Option String)
    (store : KeyStore) (remodashToken : Option String) (now : ℤ)
    (sessionFound : Bool) : WsOutcome :=
  if ¬ wsAuthPass noAuth key token store remodashToken now then .refused 4003
  else if ¬ sessionFound then .refused 4004
  else .accepted

/-- Modelled from the spec:
the authentication order claim C5 reads into `terminal_stream_ws` — no-auth
flag, else a valid session key, else (falling through even when a key was
supplied but invalid) a valid long-lived token.  This definition follows the
claim's words and is compared against `wsAuthPass`, which follows the code. -/
def claimedAuthPass (noAuth : Bool) (key token : Option String)
    (store : KeyStore) (remodashToken : Option String) (now : ℤ) : Bool :=
  if noAuth then true
  else if pyTruthy key && wsKeyValid store (key.getD "") now then true
  else wsTokenOk remodashToken token

/-! ### Shell spawning (`TerminalSession._start`)

POSIX branch.  `pathEx` models `os.path.exists`; spawn oracles model
`subprocess.Popen` on a given command. -/

/-- Shell resolution shared by both variants:
`settings.get("terminal_shell")` if truthy, else
`os.environ.get("SHELL", "/bin/bash")`. -/
def resolveShell (cfgShell envShell : Option String) : String :=
  match cfgShell with
  | some c => if c = "" then envShell.getD "/bin/bash" else c
  | none => envShell.getD "/bin/bash"

/-- The ordered fallback list of `core/api/terminal.py::_start`. -/
def coreFallbacks : List String :=
  ["/bin/sh", "/system/bin/sh", "/data/data/com.termux/files/usr/bin/sh"]

/-- The diagnostic line appended by `core/api/terminal.py::_start` when no
shell at all could be spawned. -/
def coreSpawnDiag : String :=
  "Error: Failed to start shell process. Please check settings.\r\n"

/-- Model of `core/api/terminal.py::_start` (lines 101–120), POSIX branch.
`try_spawn` catches every exception, so spawning is an oracle
`spawnOk : String → Bool`.  The fallback loop takes the first fallback that
differs from the resolved shell, exists on disk, and spawns.  On total
failure the diagnostic line is appended and the session closed; on success
the reader task is started.  The function is total: construction never
raises. -/
def coreStart (cfgShell envShell : Option String) (pathEx spawnOk : String → Bool)
    (s0 : SessionState) : SessionState :=
  let shell := resolveShell cfgShell envShell
  let p : Option String :=
    if spawnOk shell then some shell
    else List.find? (fun fb => fb ≠ shell && pathEx fb && spawnOk fb) coreFallbacks
  match p with
  | some sh => { s0 with proc := some sh, readerStarted := true }
  | none => close { s0 with history := s0.history ++ [HEntry.diag coreSpawnDiag] }

/-- Result of one `subprocess.Popen` attempt in `server.py::_start`:
success, `FileNotFoundError` (the only exception the code catches), or any
other exception. -/
inductive SpawnRes where
| ok : SpawnRes
| fnf : SpawnRes
| err : SpawnRes
deriving DecidableEq

/-- The single fallback chosen by `server.py::_start`: `/system/bin/sh` if
present, else the Termux shell if present, else `/bin/sh`. -/
def serverFallbackChoice (pathEx : String → Bool) : String :=
  if pathEx "/system/bin/sh" then "/system/bin/sh"
  else if pathEx "/data/data/com.termux/files/usr/bin/sh" then
    "/data/data/com.termux/files/usr/bin/sh"
  else "/bin/sh"

/-- Model of `server.py::TerminalSession._start` (lines 1672–1709), POSIX branch.
Only `FileNotFoundError` from the first spawn is caught; any other spawn
exception propagates to the caller (`Except.error`).  The one fallback is
attempted only if it differs from the resolved shell and exists, under a
bare `except: pass`.  On total failure nothing is appended to history, the
session is not closed, and the reader task is still started. -/
def serverStart (cfgShell envShell : Option String) (pathEx : String → Bool)
    (spawn : String → SpawnRes) (s0 : SessionState) : Except Unit SessionState :=
  let shell := resolveShell cfgShell envShell
  match spawn shell with
  | .ok => .ok { s0 with proc := some shell, readerStarted := true }
  | .err => .error ()
  | .fnf =>
      let fb := serverFallbackChoice pathEx
      if shell ≠ fb ∧ pathEx fb then
        match spawn fb with
        | .ok => .ok { s0 with proc := some fb, readerStarted := true }
        | _ => .ok { s0 with readerStarted := true }
      else .ok { s0 with readerStarted := true }

/-! ### History capping and the read loop (`TerminalSession._read_loop`)

`server.py` lines 1711–1730 and `core/api/terminal.py` lines 122–147 share
the chunk-append logic; the `"[Process terminated]"` notice on loop exit
exists only in the `core/api` variant and is embedded here. -/

/-- The chunk append of `_read_loop`:
`history.append(text); if len(history) > 1000: history = history[-1000:]`.
`l[-1000:]` keeps the last 1000 elements, i.e. drops `len - 1000` from the
front. -/
def appendCapped (h : List HEntry) (e : HEntry) : List HEntry :=
  let h1 := h ++ [e]
  if h1.length > 1000 then h1.drop (h1.length - 1000) else h1

/-- An event observed by a running session: a nonempty chunk arriving from
the channel (`recv`), end-of-stream / read error (`eof`, which is also how
the loop body's own exit after seeing `closed` is reached), or an external
`close()` call (explicit kill). -/
inductive REv where
| recv (t : String) : REv
| eof : REv
| closeCall : REv

/-- One step of the session's life, `core/api/terminal.py` variant.  The
first component is the session state, the second the log of entries passed
to `_broadcast` so far.  A chunk arriving once `closed` is set is not
processed (the `while not self.closed` guard).  On `eof` the loop exits:
when the session is not already closed the synthetic notice is appended to
history — with no cap applied — and broadcast, then `close()` runs. -/
def stepRead (p : SessionState × List HEntry) (e : REv) : SessionState × List HEntry :=
  match e with
  | .recv t =>
      if p.1.closed then p
      else ({ p.1 with history := appendCapped p.1.history (.chunk t) },
            p.2 ++ [HEntry.chunk t])
  | .closeCall => (close p.1, p.2)
  | .eof =>
      if p.1.closed then (close p.1, p.2)
      else (close { p.1 with history := p.1.history ++ [HEntry.notice] },
            p.2 ++ [HEntry.notice])

/-- A session's whole event history, folded from an initial state with an
empty broadcast log. -/
def runRead (s : SessionState) (evs : List REv) : SessionState × List HEntry :=
  List.foldl stepRead (s, []) evs

/-! ### Broadcast fan-out (`TerminalSession._broadcast`, `server.py` lines 1732–1741) -/

/-- The fan-out loop of `_broadcast`: every subscriber, in order, gets one
`send_text` attempt; a raise (oracle `ok w = false`) is caught and the
subscriber queued in `to_remove`.  Returns (sends attempted, `to_remove`). -/
def broadcastLoop (ok : Nat → Bool) (m : WireMsg) :
    List Nat → List (Nat × WireMsg) × List Nat
| [] => ([], [])
| w :: ws =>
    let r := broadcastLoop ok m ws
    ((w, m) :: r.1, if ok w then r.2 else w :: r.2)

/-- Model of `_broadcast(text)`: build the output wire message, fan it out to each
subscriber, then `discard` every subscriber that failed.  Nothing else in
the state is touched. -/
def sessionBroadcast (s : SessionState) (ok : Nat → Bool) (text : String) :
    SessionState × List (Nat × WireMsg) :=
  let m : WireMsg := ⟨"output", text⟩
  let r := broadcastLoop ok m s.subscribers
  ({ s with subscribers := List.filter (fun w => ¬ (w ∈ r.2 : Bool)) s.subscribers },
   r.1)

/-! ### The receive loop and the two gateways -/

/-- Python subscripting `j["type"]` for the parsed message: defined only on
objects with the key present; every other case raises
(`KeyError`/`TypeError`). -/
def subscript (j : Json) (k : String) : Option Json :=
  match j with
  | .obj fields => (List.find? (fun p => p.1 = k) fields).map Prod.snd
  | _ => none

/-- Python `msg.get(k, d)` on the object: field value or default, never
raising (the receive loop only calls it after `msg["type"]` succeeded, so
`msg` is an object there). -/
def jget (j : Json) (k : String) (d : Json) : Json :=
  match subscript j k with
  | some v => v
  | none => d

/-- What one iteration of the receive loop does with one inbound text
frame:  raise (ending the connection), silently ignore it, forward an
input, or forward a resize. -/
inductive Step where
| raise : Step
| ignore : Step
| inputA (d : Json) : Step
| resizeA (m : Json) : Step

/-- One receive-loop iteration (`server.py` lines 1913–1928, identical in
`core/api/terminal.py`): `json.loads` failure raises (`none`); `msg["type"]`
on a non-object or an object without the key raises; `"input"` then reads
`msg["data"]` (raising when absent); `"resize"` forwards the message;
any other `"type"` value matches neither branch and the loop just
continues. -/
def handleFrame : Option Json → Step
| none => .raise
| some j =>
    match subscript j "type" with
    | none => .raise
    | some tv =>
        match tv with
        | .str s =>
            if s = "input" then
              match subscript j "data" with
              | none => .raise
              | some d => .inputA d
            else if s = "resize" then .resizeA j
            else .ignore
        | _ => .ignore

/-- Model of `write_input(data)` on the POSIX branch: a no-op when closed; otherwise
`os.write(fd, data.encode())` inside `try/except`, so a non-string payload
(whose `.encode` raises) is swallowed and only string payloads reach the
channel. -/
def writeInput (s : SessionState) (d : Json) : SessionState :=
  if s.closed then s
  else match d with
       | .str t => { s with written := s.written ++ [t] }
       | _ => s

/-- Model of `resize(cols, rows)` as called by the receive loop: stores
`msg.get("cols", 80)` and `msg.get("rows", 24)` unconditionally (the
`ioctl` is wrapped in `try/except`). -/
def resizeFromMsg (s : SessionState) (m : Json) : SessionState :=
  { s with cols := jget m "cols" (Json.num 80), rows := jget m "rows" (Json.num 24) }

/-- The receive loop over the connection's inbound frames (`none` models a
frame `json.loads` cannot parse).  An exhausted list models the transport
disconnect that ends the loop; a raising frame ends the loop at once,
leaving later frames unconsumed.  Returns the session state and the number
of frames consumed. -/
def runFrames (s : SessionState) : List (Option Json) → SessionState × ℕ
| [] => (s, 0)
| f :: fs =>
    match handleFrame f with
    | .raise => (s, 1)
    | .ignore =>
        let r := runFrames s fs
        (r.1, r.2 + 1)
    | .inputA d =>
        let r := runFrames (writeInput s d) fs
        (r.1, r.2 + 1)
    | .resizeA m =>
        let r := runFrames (resizeFromMsg s m) fs
        (r.1, r.2 + 1)

/-- Result of one accepted per-session connection. -/
structure ConnRes where
  final : SessionState
  replay : List WireMsg
  consumed : ℕ

/-- Model of `server.py::terminal_stream_ws` after a successful gate (lines
1905–1928): accept, add the caller to the session's subscriber set, send
every history entry in order, run the receive loop, and in `finally`
discard that one subscriber.  The session itself is left as the loop left
it — never closed here. -/
def serverConnection (s : SessionState) (w : Nat) (frames : List (Option Json)) :
    ConnRes :=
  let s1 := { s with subscribers := setAdd s.subscribers w }
  let rep := List.map (fun e => WireMsg.mk "output" (HEntry.text e)) s1.history
  let r := runFrames s1 frames
  { final := { r.1 with subscribers := List.filter (fun x => x ≠ w) r.1.subscribers },
    replay := rep, consumed := r.2 }

/-- Model of `core/api/terminal.py::terminal_stream_ws` after a successful gate
(lines 231–262): accept, construct a session locally (passed in here as
`s`, already `_start`ed), add the caller as subscriber, optionally inject a
command via `write_input`, replay history, run the receive loop — and in
`finally` call `session.close()`; the subscriber is never discarded. -/
def coreConnection (s : SessionState) (w : Nat) (command : Option String)
    (frames : List (Option Json)) : ConnRes :=
  let s1 := { s with subscribers := setAdd s.subscribers w }
  let s2 := match command with
            | some c => writeInput s1 (Json.str (c ++ "\r\n"))
            | none => s1
  let rep := List.map (fun e => WireMsg.mk "output" (HEntry.text e)) s2.history
  let r := runFrames s2 frames
  { final := close r.1, replay := rep, consumed := r.2 }

/-! ### The session registry (`server.py::TerminalManager`, lines 1810–1814) -/

/-- The registry map: session id → session. -/
abbrev Registry := List (String × SessionState)

/-- Python `dict.get` on the registry. -/
def regGet (m : Registry) (sid : String) : Option SessionState :=
  (List.find? (fun p => p.1 = sid) m).map Prod.snd

/-- Python `dict.pop`'s removal effect on the registry. -/
def regErase (m : Registry) (sid : String) : Registry :=
  List.filter (fun p => ¬ (p.1 = sid : Bool)) m

/-- The atomic actions `kill_session` performs, in program order. -/
inductive RegAction where
| popA (sid : String) : RegAction
| closeA (sid : String) : RegAction
| emitA (ev sid : String) : RegAction
deriving DecidableEq

/-- Model of `TerminalManager.kill_session(sid)`: when the id is present, `pop` it
from the map, `close()` the popped session, and schedule a `"kill"` event
broadcast; when absent, do nothing.  Returns (new map, sessions closed by
the call, events emitted). -/
def killSession (m : Registry) (sid : String) :
    Registry × List SessionState × List (String × String) :=
  match regGet m sid with
  | some s => (regErase m sid, [close s], [("kill", sid)])
  | none => (m, [], [])

/-- The order of `kill_session`'s side effects: remove from the map first,
then close, then emit — and nothing at all on an unknown id. -/
def killSessionTrace (m : Registry) (sid : String) : List RegAction :=
  match regGet m sid with
  | some _ => [.popA sid, .closeA sid, .emitA "kill" sid]
  | none => []

/-- A session whose shell spawned: the state `TerminalSession.__init__`
leaves behind on the happy path (used as a concrete fixture below). -/
def runningSession : SessionState :=
  { freshSession with proc := some "/bin/bash", readerStarted := true }

/-! ## Auxiliary lemmas -/

theorem storeGet_filter_storeSet (s : KeyStore) (k : String) (v : ℤ)
    (keep : String × ℤ → Bool) (hk : keep (k, v) = true) :
    storeGet (List.filter keep (storeSet s k v)) k = some v := by
  induction s with
  | nil => simp [storeSet, storeGet, hk]
  | cons p rest ih =>
      obtain ⟨k', v'⟩ := p
      by_cases h : k' = k
      · subst h
        simp [storeSet, storeGet, hk]
      · simp only [storeSet, if_neg h, List.filter_cons]
        cases hkeep : keep (k', v') with
        | true =>
            simp only [if_pos rfl]
            simpa [storeGet, List.find?_cons, h] using ih
        | false =>
            simpa using ih

theorem mem_storeSet_of_ne (s : KeyStore) (k : String) (v : ℤ)
    (p : String × ℤ) (hp : p ∈ s) (hne : p.1 ≠ k) : p ∈ storeSet s k v := by
  induction s with
  | nil => cases hp
  | cons q rest ih =>
      obtain ⟨k', v'⟩ := q
      by_cases h : k' = k
      · subst h
        simp only [storeSet, if_pos rfl]
        rcases List.mem_cons.mp hp with h1 | h1
        · exact absurd (congrArg Prod.fst h1) hne
        · exact List.mem_cons_of_mem _ h1
      · simp only [storeSet, if_neg h]
        rcases List.mem_cons.mp hp with h1 | h1
        · exact h1 ▸ List.mem_cons_self _ _
        · exact List.mem_cons_of_mem _ (ih h1)

theorem repeatValidate_store (s : KeyStore) (k : String) (t : ℤ) :
    ∀ n, (repeatValidate s k t n).2 = s := by
  intro n
  induction n with
  | zero => rfl
  | succ n ih =>
      have h : (repeatValidate s k t (n + 1)).2 = (repeatValidate s k t n).2 := rfl
      rw [h, ih]

theorem repeatValidate_verdict (s : KeyStore) (k : String) (t : ℤ) :
    ∀ n, (repeatValidate s k t n).1 = (verifyTokenKeyBranch s k t).1 := by
  intro n
  induction n with
  | zero => rfl
  | succ n ih =>
      have h : (repeatValidate s k t (n + 1)).1
          = (verifyTokenKeyBranch (repeatValidate s k t n).2 k t).1 := rfl
      rw [h, repeatValidate_store s k t n]

theorem regGet_regErase_self (m : Registry) (sid : String) :
    regGet (regErase m sid) sid = none := by
  have h : List.find? (fun p => p.1 = sid) (regErase m sid)
      = (none : Option (String × SessionState)) := by
    apply List.find?_eq_none.mpr
    intro p hp
    have h2 := (List.mem_filter.mp hp).2
    simp only [decide_eq_true_eq] at h2 ⊢
    simpa using h2
  rw [regGet, h]
  rfl

theorem regGet_regErase_ne (m : Registry) (sid k : String) (h : k ≠ sid) :
    regGet (regErase m sid) k = regGet m k := by
  induction m with
  | nil => rfl
  | cons p rest ih =>
      by_cases hp : p.1 = sid
      · have hk : ¬ (p.1 = k) := fun hc => h (hc.symm.trans hp)
        simp only [regErase, List.filter_cons, hp] at ih ⊢
        simpa [regGet, List.find?_cons, hk] using ih
      · by_cases hk : p.1 = k
        · simp [regErase, List.filter_cons, hp, regGet, List.find?_cons, hk, h]
        · simp only [regErase, List.filter_cons, hp] at ih ⊢
          simpa [regGet, List.find?_cons, hk] using ih

theorem broadcastLoop_sends (ok : Nat → Bool) (m : WireMsg) :
    ∀ l, (broadcastLoop ok m l).1 = List.map (fun w => (w, m)) l := by
  intro l
  induction l with
  | nil => rfl
  | cons w ws ih => simp [broadcastLoop, ih]

theorem broadcastLoop_toRemove (ok : Nat → Bool) (m : WireMsg) :
    ∀ l, (broadcastLoop ok m l).2 = List.filter (fun w => ! ok w) l := by
  intro l
  induction l with
  | nil => rfl
  | cons w ws ih =>
      cases hok : ok w <;> simp [broadcastLoop, ih, hok]

theorem count_pair_map (m : WireMsg) (w : Nat) :
    ∀ l : List Nat, (List.map (fun x => (x, m)) l).count (w, m) = l.count w := by
  intro l
  induction l with
  | nil => rfl
  | cons x xs ih =>
      by_cases h : x = w
      · subst h
        simp [List.count_cons, ih]
      · simp [List.count_cons, ih, h]

theorem count_eq_one_of_nodup_mem :
    ∀ (l : List Nat) (w : Nat), l.Nodup → w ∈ l → l.count w = 1 := by
  intro l
  induction l with
  | nil => intro w _ h; cases h
  | cons x xs ih =>
      intro w hnd hm
      rcases List.mem_cons.mp hm with h | h
      · subst h
        have hx : w ∉ xs := (List.nodup_cons.mp hnd).1
        simp [List.count_cons, List.count_eq_zero.mpr hx]
      · have hne : x ≠ w := fun hc => (List.nodup_cons.mp hnd).1 (hc ▸ h)
        simp [List.count_cons, ih w (List.nodup_cons.mp hnd).2 h, hne]

theorem map_fst_pair (m : WireMsg) :
    ∀ l : List Nat, (List.map (fun x => (x, m)) l).map Prod.fst = l := by
  intro l
  induction l with
  | nil => rfl
  | cons x xs ih => simp [ih]

theorem writeInput_fields (s : SessionState) (d : Json) :
    (writeInput s d).closed = s.closed
    ∧ (writeInput s d).subscribers = s.subscribers
    ∧ (writeInput s d).history = s.history := by
  cases hc : s.closed <;> cases d <;> simp [writeInput, hc]

theorem runFrames_frame : ∀ (fs : List (Option Json)) (s : SessionState),
    (runFrames s fs).1.closed = s.closed
    ∧ (runFrames s fs).1.subscribers = s.subscribers
    ∧ (runFrames s fs).1.history = s.history := by
  intro fs
  induction fs with
  | nil => intro s; exact ⟨rfl, rfl, rfl⟩
  | cons f fs ih =>
      intro s
      cases h : handleFrame f with
      | raise => simp [runFrames, h]
      | ignore => simpa [runFrames, h] using ih s
      | inputA d =>
          have hw := writeInput_fields s d
          have hr := ih (writeInput s d)
          simp only [runFrames, h]
          exact ⟨hr.1.trans hw.1, hr.2.1.trans hw.2.1, hr.2.2.trans hw.2.2⟩
      | resizeA m =>
          have hr := ih (resizeFromMsg s m)
          simp only [runFrames, h]
          exact ⟨hr.1, hr.2.1, hr.2.2⟩

theorem not_mem_filter_ne (w : Nat) (l : List Nat) :
    w ∉ List.filter (fun x => x ≠ w) l := by
  intro hc
  have h := (List.mem_filter.mp hc).2
  simp at h

theorem filter_ne_setAdd (l : List Nat) (w : Nat) (hw : w ∉ l) :
    List.filter (fun x => x ≠ w) (setAdd l w) = l := by
  unfold setAdd
  rw [if_neg hw, List.filter_append]
  have h1 : List.filter (fun x => x ≠ w) l = l := by
    apply List.filter_eq_self.mpr
    intro a ha
    simp only [ne_eq, decide_eq_true_eq]
    exact fun hc => hw (hc ▸ ha)
  have h2 : List.filter (fun x => x ≠ w) [w] = [] := by simp
  rw [h1, h2, List.append_nil]

theorem appendCapped_length (h : List HEntry) (e : HEntry) :
    (appendCapped h e).length = min (h.length + 1) 1000 := by
  unfold appendCapped
  by_cases hl : (h ++ [e]).length > 1000
  · rw [if_pos hl, List.length_drop]
    simp only [List.length_append, List.length_singleton] at hl ⊢
    omega
  · rw [if_neg hl]
    simp only [List.length_append, List.length_singleton] at hl ⊢
    omega

theorem appendCapped_suffix (h : List HEntry) (e : HEntry) :
    List.IsSuffix (appendCapped h e) (h ++ [e]) := by
  unfold appendCapped
  by_cases hl : (h ++ [e]).length > 1000
  · rw [if_pos hl]
    exact List.drop_suffix _ _
  · rw [if_neg hl]

theorem appendCapped_at_cap (h : List HEntry) (e : HEntry) (hl : h.length = 1000) :
    appendCapped h e = h.drop 1 ++ [e] := by
  have hlen : (h ++ [e]).length = 1001 := by simp [hl]
  have hgt : (h ++ [e]).length > 1000 := by omega
  unfold appendCapped
  rw [if_pos hgt, hlen]
  have h1 : (1001 - 1000 : ℕ) = 1 := rfl
  rw [h1]
  show (h ++ [e]).drop 1 = h.drop 1 ++ [e]
  exact List.drop_append_of_le_length (by omega)

theorem count_appendCapped_chunk (h : List HEntry) (t : String) :
    (appendCapped h (HEntry.chunk t)).count HEntry.notice
      ≤ h.count HEntry.notice := by
  have hsub := (appendCapped_suffix h (HEntry.chunk t)).sublist
  have hle := hsub.count_le HEntry.notice
  calc (appendCapped h (HEntry.chunk t)).count HEntry.notice
      ≤ (h ++ [HEntry.chunk t]).count HEntry.notice := hle
    _ = h.count HEntry.notice := by simp [List.count_append, List.count_cons]

theorem runRead_len_aux : ∀ (evs : List REv) (p : SessionState × List HEntry),
    (p.1.closed = false → p.1.history.length ≤ 1000) →
    p.1.history.length ≤ 1001 →
    ((List.foldl stepRead p evs).1.closed = false →
      (List.foldl stepRead p evs).1.history.length ≤ 1000)
    ∧ (List.foldl stepRead p evs).1.history.length ≤ 1001 := by
  intro evs
  induction evs with
  | nil => intro p h1 h2; exact ⟨h1, h2⟩
  | cons e evs ih =>
      intro p h1 h2
      rw [List.foldl_cons]
      cases e with
      | recv t =>
          cases hc : p.1.closed with
          | true =>
              have hstep : stepRead p (REv.recv t) = p := by simp [stepRead, hc]
              rw [hstep]
              exact ih p h1 h2
          | false =>
              have hstep : stepRead p (REv.recv t)
                  = ({ p.1 with history := appendCapped p.1.history (HEntry.chunk t) },
                     p.2 ++ [HEntry.chunk t]) := by simp [stepRead, hc]
              rw [hstep]
              apply ih
              · intro _
                show (appendCapped p.1.history (HEntry.chunk t)).length ≤ 1000
                rw [appendCapped_length]
                omega
              · show (appendCapped p.1.history (HEntry.chunk t)).length ≤ 1001
                rw [appendCapped_length]
                omega
      | closeCall =>
          have hstep : stepRead p REv.closeCall = (close p.1, p.2) := rfl
          rw [hstep]
          apply ih
          · intro hcl
            simp [close] at hcl
          · exact h2
      | eof =>
          cases hc : p.1.closed with
          | true =>
              have hstep : stepRead p REv.eof = (close p.1, p.2) := by
                simp [stepRead, hc]
              rw [hstep]
              apply ih
              · intro hcl
                simp [close] at hcl
              · exact h2
          | false =>
              have hstep : stepRead p REv.eof
                  = (close { p.1 with history := p.1.history ++ [HEntry.notice] },
                     p.2 ++ [HEntry.notice]) := by simp [stepRead, hc]
              rw [hstep]
              apply ih
              · intro hcl
                simp [close] at hcl
              · show (p.1.history ++ [HEntry.notice]).length ≤ 1001
                have := h1 hc
                simp only [List.length_append, List.length_singleton]
                omega

theorem foldl_recv_len : ∀ (n : ℕ) (p : SessionState × List HEntry),
    p.1.closed = false → p.1.history.length ≤ 1000 →
    (List.foldl stepRead p (List.replicate n (REv.recv "x"))).1.closed = false
    ∧ (List.foldl stepRead p (List.replicate n (REv.recv "x"))).1.history.length
        = min (p.1.history.length + n) 1000 := by
  intro n
  induction n with
  | zero =>
      intro p h1 h2
      constructor
      · exact h1
      · simp
        omega
  | succ n ih =>
      intro p h1 h2
      rw [List.replicate_succ, List.foldl_cons]
      have hstep : stepRead p (REv.recv "x")
          = ({ p.1 with history := appendCapped p.1.history (HEntry.chunk "x") },
             p.2 ++ [HEntry.chunk "x"]) := by
        simp [stepRead, h1]
      rw [hstep]
      have hlen : (appendCapped p.1.history (HEntry.chunk "x")).length
          = min (p.1.history.length + 1) 1000 := appendCapped_length _ _
      have := ih ({ p.1 with history := appendCapped p.1.history (HEntry.chunk "x") },
                  p.2 ++ [HEntry.chunk "x"]) h1 (by simp [hlen])
      refine ⟨this.1, ?_⟩
      rw [this.2]
      simp only [hlen]
      omega

theorem runRead_notice_aux : ∀ (evs : List REv) (p : SessionState × List HEntry),
    (p.1.closed = false →
      p.1.history.count HEntry.notice = 0 ∧ p.2.count HEntry.notice = 0) →
    p.1.history.count HEntry.notice ≤ 1 →
    p.2.count HEntry.notice ≤ 1 →
    (List.foldl stepRead p evs).1.history.count HEntry.notice ≤ 1
    ∧ (List.foldl stepRead p evs).2.count HEntry.notice ≤ 1 := by
  intro evs
  induction evs with
  | nil => intro p _ h2 h3; exact ⟨h2, h3⟩
  | cons e evs ih =>
      intro p h1 h2 h3
      rw [List.foldl_cons]
      cases e with
      | recv t =>
          cases hc : p.1.closed with
          | true =>
              have hstep : stepRead p (REv.recv t) = p := by simp [stepRead, hc]
              rw [hstep]
              exact ih p h1 h2 h3
          | false =>
              have h0 := h1 hc
              have hcap := count_appendCapped_chunk p.1.history t
              have hstep : stepRead p (REv.recv t)
                  = ({ p.1 with history := appendCapped p.1.history (HEntry.chunk t) },
                     p.2 ++ [HEntry.chunk t]) := by simp [stepRead, hc]
              rw [hstep]
              apply ih
              · intro _
                constructor
                · show (appendCapped p.1.history (HEntry.chunk t)).count HEntry.notice = 0
                  omega
                · show (p.2 ++ [HEntry.chunk t]).count HEntry.notice = 0
                  simp [List.count_append, List.count_cons, h0.2]
              · show (appendCapped p.1.history (HEntry.chunk t)).count HEntry.notice ≤ 1
                omega
              · show (p.2 ++ [HEntry.chunk t]).count HEntry.notice ≤ 1
                simp [List.count_append, List.count_cons, h0.2]
      | closeCall =>
          have hstep : stepRead p REv.closeCall = (close p.1, p.2) := rfl
          rw [hstep]
          apply ih
          · intro hcl
            simp [close] at hcl
          · exact h2
          · exact h3
      | eof =>
          cases hc : p.1.closed with
          | true =>
              have hstep : stepRead p REv.eof = (close p.1, p.2) := by
                simp [stepRead, hc]
              rw [hstep]
              apply ih
              · intro hcl
                simp [close] at hcl
              · exact h2
              · exact h3
          | false =>
              have h0 := h1 hc
              have hstep : stepRead p REv.eof
                  = (close { p.1 with history := p.1.history ++ [HEntry.notice] },
                     p.2 ++ [HEntry.notice]) := by simp [stepRead, hc]
              rw [hstep]
              apply ih
              · intro hcl
                simp [close] at hcl
              · show (p.1.history ++ [HEntry.notice]).count HEntry.notice ≤ 1
                simp [List.count_append, List.count_cons, h0.1]
              · show (p.2 ++ [HEntry.notice]).count HEntry.notice ≤ 1
                simp [List.count_append, List.count_cons, h0.2]

theorem coreStart_total_failure (cfgShell envShell : Option String)
    (pathEx spawnOk : String → Bool) (hfail : ∀ c, spawnOk c = false)
    (s0 : SessionState) :
    coreStart cfgShell envShell pathEx spawnOk s0
      = close { s0 with history := s0.history ++ [HEntry.diag coreSpawnDiag] } := by
  have hfind : List.find? (fun fb =>
      decide (fb ≠ resolveShell cfgShell envShell) && pathEx fb && false)
        coreFallbacks = none := by
    apply List.find?_eq_none.mpr
    intro fb _
    simp
  unfold coreStart
  simp only [hfail, Bool.false_eq_true, if_false]
  rw [hfind]

/-! ## Claims -/

/-- C6: `create_session_token` stores the fresh token with expiry
`now + 60`, purges every entry whose expiry lies strictly in the past while
retaining every live entry, and returns the token; a key issued at `t`
passes the per-session gate's validity check at `t + 59` and fails it at
`t + 61`.  (`0 ≤ t` reflects that `time.time()` is positive; it rules out
the Python-truthiness corner `expiry == 0.0`.) -/
theorem c6_issue_and_validate (store : KeyStore) (freshKey : String) (t : ℤ)
    (ht : 0 ≤ t) :
    (createSessionToken store freshKey t).2 = freshKey
    ∧ storeGet (createSessionToken store freshKey t).1 freshKey = some (t + 60)
    ∧ (∀ p ∈ (createSessionToken store freshKey t).1, t ≤ p.2)
    ∧ (∀ p ∈ store, p.1 ≠ freshKey → t ≤ p.2 →
        p ∈ (createSessionToken store freshKey t).1)
    ∧ wsKeyValid (createSessionToken store freshKey t).1 freshKey (t + 59) = true
    ∧ wsKeyValid (createSessionToken store freshKey t).1 freshKey (t + 61) = false := by
  have hget : storeGet (createSessionToken store freshKey t).1 freshKey
      = some (t + 60) := by
    show storeGet (List.filter _ (storeSet store freshKey (t + 60))) freshKey = _
    exact storeGet_filter_storeSet store freshKey (t + 60) _ (by simp)
  refine ⟨rfl, hget, ?_, ?_, ?_, ?_⟩
  · intro p hp
    have hmem := List.mem_filter.mp hp
    have := of_decide_eq_true hmem.2
    omega
  · intro p hp hne hle
    refine List.mem_filter.mpr ⟨mem_storeSet_of_ne store freshKey (t + 60) p hp hne, ?_⟩
    simp
    omega
  · rw [wsKeyValid, hget]
    simp only [Bool.and_eq_true, decide_eq_true_eq]
    omega
  · rw [wsKeyValid, hget]
    have hgt : t + 61 > t + 60 := by omega
    simp [hgt]

/-- C6 witness: issuing at `t = 0` into a store holding an expired key
purges that key, binds the fresh key to expiry 60, and the fresh key
validates at 59 and fails at 61. -/
theorem c6_witness :
    (createSessionToken [("old", -5)] "k" 0).2 = "k"
    ∧ storeGet (createSessionToken [("old", -5)] "k" 0).1 "k" = some (0 + 60)
    ∧ (∀ p ∈ (createSessionToken [("old", -5)] "k" 0).1, (0:ℤ) ≤ p.2)
    ∧ (∀ p ∈ ([("old", -5)] : KeyStore), p.1 ≠ "k" → (0:ℤ) ≤ p.2 →
        p ∈ (createSessionToken [("old", -5)] "k" 0).1)
    ∧ wsKeyValid (createSessionToken [("old", -5)] "k" 0).1 "k" (0 + 59) = true
    ∧ wsKeyValid (createSessionToken [("old", -5)] "k" 0).1 "k" (0 + 61) = false :=
  c6_issue_and_validate [("old", -5)] "k" 0 (by decide)

/-- C7: the session-key branch of `verify_token` leaves the key store
unchanged — it neither removes the key nor extends its expiry — and for a
key still inside its validity window every number of successive validation
attempts succeeds, each run against the store the previous attempt left
behind. -/
theorem c7_validation_frame (s : KeyStore) (k : String) (t e : ℤ)
    (hget : storeGet s k = some e) (hnz : e ≠ 0) (hwin : t < e) :
    (verifyTokenKeyBranch s k t).2 = s
    ∧ (∀ n, (repeatValidate s k t n).2 = s)
    ∧ (∀ n, (repeatValidate s k t n).1 = true) := by
  have hv : (verifyTokenKeyBranch s k t).1 = true := by
    rw [verifyTokenKeyBranch]
    simp [hget, hnz, hwin]
  exact ⟨rfl, repeatValidate_store s k t,
    fun n => (repeatValidate_verdict s k t n).trans hv⟩

/-- C7 witness: a key with expiry 60 validated at `t = 0`, four times in a
row — the store is untouched and every attempt succeeds. -/
theorem c7_witness :
    (verifyTokenKeyBranch [("k", 60)] "k" 0).2 = [("k", 60)]
    ∧ (repeatValidate [("k", 60)] "k" 0 3).2 = [("k", 60)]
    ∧ (repeatValidate [("k", 60)] "k" 0 3).1 = true := by
  have h := c7_validation_frame [("k", 60)] "k" 0 60 rfl (by decide) (by decide)
  exact ⟨h.1, h.2.1 3, h.2.2 3⟩

/-- C8: `kill_session` on a registered id removes the session from the map
(before closing: its trace is pop, then close, then emit), closes exactly
that session, leaves every other binding intact, and emits one `"kill"`
event; on an unknown id it is a complete no-op — map unchanged, nothing
closed, no event — and, being a total function, it raises nothing. -/
theorem c8_kill_session (m : Registry) (sid : String) :
    (∀ s, regGet m sid = some s →
      (killSession m sid).1 = regErase m sid
      ∧ regGet (killSession m sid).1 sid = none
      ∧ (∀ k, k ≠ sid → regGet (killSession m sid).1 k = regGet m k)
      ∧ (killSession m sid).2.1 = [close s]
      ∧ (close s).closed = true
      ∧ (killSession m sid).2.2 = [("kill", sid)]
      ∧ killSessionTrace m sid
          = [RegAction.popA sid, RegAction.closeA sid, RegAction.emitA "kill" sid])
    ∧ (regGet m sid = none →
      killSession m sid = (m, [], []) ∧ killSessionTrace m sid = []) := by
  constructor
  · intro s hs
    refine ⟨?_, ?_, ?_, ?_, rfl, ?_, ?_⟩ <;>
      simp only [killSession, killSessionTrace, hs]
    · exact regGet_regErase_self m sid
    · intro k hk
      exact regGet_regErase_ne m sid k hk
  · intro hn
    constructor <;> simp only [killSession, killSessionTrace, hn]

/-- C8 witness: a one-session registry — killing the present id empties the
map, closes the session and emits the event; killing an absent id changes
nothing and emits nothing. -/
theorem c8_witness :
    (killSession [("a", freshSession)] "a").1 = []
    ∧ (killSession [("a", freshSession)] "a").2.1 = [close freshSession]
    ∧ (killSession [("a", freshSession)] "a").2.2 = [("kill", "a")]
    ∧ killSession [("a", freshSession)] "b" = ([("a", freshSession)], [], []) := by
  have h := (c8_kill_session [("a", freshSession)] "a").1 freshSession rfl
  have h2 := (c8_kill_session [("a", freshSession)] "b").2 rfl
  exact ⟨by rw [h.1]; rfl, h.2.2.2.1, h.2.2.2.2.2.1, h2.1⟩

/-- C9: `_broadcast` attempts exactly one send of the output message to
every subscriber, in set-iteration order; a delivery failure (the oracle
`ok`) removes only the failing subscribers afterwards, never aborts the
remaining sends, and leaves the closed flag and the history untouched. -/
theorem c9_broadcast_isolation (s : SessionState) (ok : Nat → Bool) (text : String)
    (hnd : s.subscribers.Nodup) :
    (∀ w ∈ s.subscribers,
        (sessionBroadcast s ok text).2.count (w, WireMsg.mk "output" text) = 1)
    ∧ (sessionBroadcast s ok text).2.map Prod.fst = s.subscribers
    ∧ (sessionBroadcast s ok text).1.subscribers = List.filter ok s.subscribers
    ∧ (sessionBroadcast s ok text).1.closed = s.closed
    ∧ (sessionBroadcast s ok text).1.history = s.history := by
  have hs : (sessionBroadcast s ok text).2
      = List.map (fun w => (w, WireMsg.mk "output" text)) s.subscribers :=
    broadcastLoop_sends ok _ s.subscribers
  have hr : (broadcastLoop ok (WireMsg.mk "output" text) s.subscribers).2
      = List.filter (fun w => ! ok w) s.subscribers :=
    broadcastLoop_toRemove ok _ s.subscribers
  refine ⟨?_, ?_, ?_, rfl, rfl⟩
  · intro w hw
    rw [hs, count_pair_map]
    exact count_eq_one_of_nodup_mem s.subscribers w hnd hw
  · rw [hs, map_fst_pair]
  · show List.filter _ s.subscribers = _
    apply List.filter_congr
    intro w hw
    rw [hr]
    cases hok : ok w with
    | true =>
        have : w ∉ List.filter (fun w => ! ok w) s.subscribers := by
          intro hc
          have := (List.mem_filter.mp hc).2
          rw [hok] at this
          cases this
        simp [this]
    | false =>
        have : w ∈ List.filter (fun w => ! ok w) s.subscribers :=
          List.mem_filter.mpr ⟨hw, by rw [hok]; rfl⟩
        simp [this]

/-- C9 witness: three attached observers, the middle send fails — all three
sends are attempted once each, only the failing observer is detached, and
the session stays open. -/
theorem c9_witness :
    (∀ w ∈ ({ freshSession with subscribers := [1, 2, 3] } : SessionState).subscribers,
      (sessionBroadcast { freshSession with subscribers := [1, 2, 3] }
          (fun w => ! decide (w = 2)) "hi").2.count (w, WireMsg.mk "output" "hi") = 1)
    ∧ (sessionBroadcast { freshSession with subscribers := [1, 2, 3] }
        (fun w => ! decide (w = 2)) "hi").2.map Prod.fst = [1, 2, 3]
    ∧ (sessionBroadcast { freshSession with subscribers := [1, 2, 3] }
        (fun w => ! decide (w = 2)) "hi").1.subscribers
          = List.filter (fun w => ! decide (w = 2)) [1, 2, 3]
    ∧ (sessionBroadcast { freshSession with subscribers := [1, 2, 3] }
        (fun w => ! decide (w = 2)) "hi").1.closed
          = ({ freshSession with subscribers := [1, 2, 3] } : SessionState).closed
    ∧ (sessionBroadcast { freshSession with subscribers := [1, 2, 3] }
        (fun w => ! decide (w = 2)) "hi").1.history
          = ({ freshSession with subscribers := [1, 2, 3] } : SessionState).history :=
  c9_broadcast_isolation { freshSession with subscribers := [1, 2, 3] }
    (fun w => ! decide (w = 2)) "hi" (by decide)

/-- C1 counterexample: in `core/api/terminal.py::terminal_stream_ws` the
`finally` block runs `session.close()` — an accepted connection on a
running, open session that disconnects immediately leaves the session
closed (and the subscriber still attached), contradicting the claim that
the end of the receive loop only detaches the observer and never closes
the session. -/
theorem c1_counterexample :
    runningSession.closed = false
    ∧ (coreConnection runningSession 7 none []).final.closed = true
    ∧ (coreConnection runningSession 7 none []).final.subscribers = [7] :=
  ⟨rfl, rfl, by decide⟩

/-- C1 (amended): on an accepted per-session connection both gateways
attach the caller as observer first and then replay the full history in
original order; in `server.py`'s registry-backed gateway the end of the
receive loop detaches only that observer, restoring the subscriber set and
leaving the closed flag untouched — while in `core/api/terminal.py`'s
per-connection gateway (which constructs its own session) the end of the
receive loop closes that session. -/
theorem c1_amended_gateway_behavior (s : SessionState) (w : Nat)
    (frames : List (Option Json)) (command : Option String)
    (hw : w ∉ s.subscribers) :
    (serverConnection s w frames).replay
      = List.map (fun e => WireMsg.mk "output" (HEntry.text e)) s.history
    ∧ (serverConnection s w frames).final.subscribers = s.subscribers
    ∧ (serverConnection s w frames).final.closed = s.closed
    ∧ (coreConnection s w command frames).replay
      = List.map (fun e => WireMsg.mk "output" (HEntry.text e)) s.history
    ∧ (coreConnection s w command frames).final.closed = true := by
  refine ⟨rfl, ?_, ?_, ?_, rfl⟩
  · show List.filter (fun x => x ≠ w)
        (runFrames { s with subscribers := setAdd s.subscribers w } frames).1.subscribers
      = s.subscribers
    rw [(runFrames_frame frames { s with subscribers := setAdd s.subscribers w }).2.1]
    exact filter_ne_setAdd s.subscribers w hw
  · show (runFrames { s with subscribers := setAdd s.subscribers w } frames).1.closed
      = s.closed
    rw [(runFrames_frame frames { s with subscribers := setAdd s.subscribers w }).1]
  · cases command with
    | none => rfl
    | some c =>
        show List.map (fun e => WireMsg.mk "output" (HEntry.text e))
          (writeInput { s with subscribers := setAdd s.subscribers w }
            (Json.str (c ++ "\r\n"))).history = _
        rw [(writeInput_fields { s with subscribers := setAdd s.subscribers w }
          (Json.str (c ++ "\r\n"))).2.2]

/-- C1 witness: a running session with no observers; observer 7 connects to
each gateway and disconnects at once. -/
theorem c1_witness :
    (serverConnection runningSession 7 []).replay
      = List.map (fun e => WireMsg.mk "output" (HEntry.text e)) runningSession.history
    ∧ (serverConnection runningSession 7 []).final.subscribers
        = runningSession.subscribers
    ∧ (serverConnection runningSession 7 []).final.closed = runningSession.closed
    ∧ (coreConnection runningSession 7 none []).replay
      = List.map (fun e => WireMsg.mk "output" (HEntry.text e)) runningSession.history
    ∧ (coreConnection runningSession 7 none []).final.closed = true :=
  c1_amended_gateway_behavior runningSession 7 [] none (by decide)

/-- C2 counterexample: in `server.py`'s `_start` (unlike `core/api`'s),
total spawn failure — shell and fallback both `FileNotFoundError` — leaves
history empty (no diagnostic line) and the closed flag false; construction
still returns normally. -/
theorem c2_counterexample :
    (serverStart none none (fun _ => false) (fun _ => SpawnRes.fnf)
      freshSession).toOption.map (fun st => (st.history, st.closed))
      = some ([], false) := rfl

/-- C2 (amended): when every shell candidate fails to spawn, construction
never raises in either variant; in `core/api/terminal.py` the session's
history then holds exactly the one diagnostic line and the closed flag is
already true, while in `server.py` (spawn failures being
`FileNotFoundError`) the session is returned with empty history and closed
still false. -/
theorem c2_amended_spawn_failure (cfgShell envShell : Option String)
    (pathEx spawnOk : String → Bool) (hfail : ∀ c, spawnOk c = false) :
    (coreStart cfgShell envShell pathEx spawnOk freshSession).history
      = [HEntry.diag coreSpawnDiag]
    ∧ (coreStart cfgShell envShell pathEx spawnOk freshSession).closed = true
    ∧ (∀ spawn : String → SpawnRes, (∀ c, spawn c = SpawnRes.fnf) →
        (serverStart cfgShell envShell pathEx spawn freshSession).toOption.map
          (fun st => (st.history, st.closed)) = some ([], false)) := by
  have hcore := coreStart_total_failure cfgShell envShell pathEx spawnOk hfail freshSession
  refine ⟨?_, ?_, ?_⟩
  · rw [hcore]
    rfl
  · rw [hcore]
    rfl
  · intro spawn hs
    unfold serverStart
    simp only [hs]
    by_cases hc : resolveShell cfgShell envShell ≠ serverFallbackChoice pathEx
        ∧ pathEx (serverFallbackChoice pathEx) = true
    · rw [if_pos hc]
      rfl
    · rw [if_neg hc]
      rfl

/-- C2 witness: no configured shell, no environment shell, nothing on disk,
every spawn fails. -/
theorem c2_witness :
    (coreStart none none (fun _ => false) (fun _ => false) freshSession).history
      = [HEntry.diag coreSpawnDiag]
    ∧ (coreStart none none (fun _ => false) (fun _ => false) freshSession).closed = true
    ∧ (serverStart none none (fun _ => false) (fun _ => SpawnRes.fnf)
        freshSession).toOption.map (fun st => (st.history, st.closed))
        = some ([], false) := by
  have h := c2_amended_spawn_failure none none (fun _ => false) (fun _ => false)
    (fun _ => rfl)
  exact ⟨h.1, h.2.1, h.2.2 (fun _ => SpawnRes.fnf) (fun _ => rfl)⟩

/-- C3 counterexample: a reachable run — 1000 chunks fill the buffer to the
1000-entry cap, then end-of-stream appends the termination notice with no
truncation: the history ends at 1001 entries, violating the claimed ≤ 1000
bound after the notice append. -/
theorem c3_counterexample :
    ¬ ((runRead runningSession
        (List.replicate 1000 (REv.recv "x") ++ [REv.eof])).1.history.length ≤ 1000) := by
  have hrl : (runningSession, ([] : List HEntry)).1.history.length = 0 := rfl
  have h := foldl_recv_len 1000 (runningSession, []) rfl (by rw [hrl]; omega)
  have hlen : (List.foldl stepRead (runningSession, ([] : List HEntry))
      (List.replicate 1000 (REv.recv "x"))).1.history.length = 1000 := by
    rw [h.2, hrl]
    omega
  unfold runRead
  rw [List.foldl_append]
  have hstep : ∀ q : SessionState × List HEntry,
      List.foldl stepRead q [REv.eof] = stepRead q REv.eof := fun q => rfl
  rw [hstep]
  have hs : ∀ q : SessionState × List HEntry, q.1.closed = false →
      stepRead q REv.eof
        = (close { q.1 with history := q.1.history ++ [HEntry.notice] },
           q.2 ++ [HEntry.notice]) := by
    intro q hq
    simp [stepRead, hq]
  rw [hs _ h.1]
  show ¬ (((List.foldl stepRead (runningSession, ([] : List HEntry))
      (List.replicate 1000 (REv.recv "x"))).1.history ++ [HEntry.notice]).length ≤ 1000)
  rw [List.length_append, hlen, List.length_singleton]
  omega

/-- C3 (amended): every read-loop chunk append keeps the history at ≤ 1000
entries and evicts from the front (the result is a suffix of the buffer
plus the new chunk; at capacity exactly the oldest entry is dropped), and
the spawn diagnostic lands alone in a fresh history — but the termination
notice is appended without truncation, so over a session's whole life the
history length is bounded by 1001, not 1000. -/
theorem c3_amended_history_cap :
    (∀ h e, h.length ≤ 1000 → (appendCapped h e).length ≤ 1000)
    ∧ (∀ h e, List.IsSuffix (appendCapped h e) (h ++ [e]))
    ∧ (∀ h e, h.length = 1000 → appendCapped h e = h.drop 1 ++ [e])
    ∧ (∀ s evs, s.closed = false → s.history.length ≤ 1000 →
        (runRead s evs).1.history.length ≤ 1001)
    ∧ (∀ cfgShell envShell pathEx spawnOk, (∀ c : String, spawnOk c = false) →
        (coreStart cfgShell envShell pathEx spawnOk freshSession).history.length = 1) := by
  refine ⟨?_, appendCapped_suffix, appendCapped_at_cap, ?_, ?_⟩
  · intro h e hl
    rw [appendCapped_length]
    omega
  · intro s evs hc hl
    exact (runRead_len_aux evs (s, []) (fun _ => hl)
      (show s.history.length ≤ 1001 by omega)).2
  · intro cfgShell envShell pathEx spawnOk hfail
    rw [coreStart_total_failure cfgShell envShell pathEx spawnOk hfail freshSession]
    rfl

/-- C3 witness: the cap holds for an append to a one-entry buffer; a
full-capacity append drops exactly the head; a one-event run stays within
1001; the diagnostic makes a one-entry history. -/
theorem c3_witness :
    ([HEntry.chunk "a"] : List HEntry).length ≤ 1000
    ∧ (appendCapped [HEntry.chunk "a"] (HEntry.chunk "b")).length ≤ 1000
    ∧ List.IsSuffix (appendCapped [HEntry.chunk "a"] (HEntry.chunk "b"))
        ([HEntry.chunk "a"] ++ [HEntry.chunk "b"])
    ∧ appendCapped (List.replicate 1000 (HEntry.chunk "y")) (HEntry.chunk "z")
        = (List.replicate 1000 (HEntry.chunk "y")).drop 1 ++ [HEntry.chunk "z"]
    ∧ (runRead runningSession [REv.eof]).1.history.length ≤ 1001
    ∧ (coreStart none none (fun _ => false) (fun _ => false) freshSession).history.length
        = 1 := by
  have h := c3_amended_history_cap
  refine ⟨by decide, h.1 [HEntry.chunk "a"] (HEntry.chunk "b") (by decide),
    h.2.1 [HEntry.chunk "a"] (HEntry.chunk "b"),
    h.2.2.1 (List.replicate 1000 (HEntry.chunk "y")) (HEntry.chunk "z")
      (by rw [List.length_replicate]),
    h.2.2.2.1 runningSession [REv.eof] rfl (by decide),
    h.2.2.2.2 none none (fun _ => false) (fun _ => false) (fun _ => rfl)⟩

/-- C4 counterexample: `close()` twice (an explicit kill issued twice)
before the read loop observes end-of-stream: the run produces zero
`"[Process terminated]"` notices in history and zero in the broadcast log —
not exactly one as claimed. -/
theorem c4_counterexample :
    (runRead runningSession [REv.closeCall, REv.closeCall, REv.eof]).1.history.count
        HEntry.notice = 0
    ∧ (runRead runningSession [REv.closeCall, REv.closeCall, REv.eof]).2.count
        HEntry.notice = 0 := by
  exact ⟨by decide, by decide⟩

/-- C4 (amended): `close()` is idempotent and total (a second call is a safe
no-op that cannot raise); the read loop appends and broadcasts the
termination notice on end-of-stream exactly when the session is not already
closed — skipping it after an explicit kill — so any run of a session whose
history starts without a notice ends with at most one notice in history and
at most one notice broadcast, never two. -/
theorem c4_amended_close_idempotent :
    (∀ s, close (close s) = close s)
    ∧ (∀ (s : SessionState) (l : List HEntry), s.closed = true →
        stepRead (s, l) REv.eof = (close s, l))
    ∧ (∀ (s : SessionState) (l : List HEntry), s.closed = false →
        stepRead (s, l) REv.eof
          = (close { s with history := s.history ++ [HEntry.notice] },
             l ++ [HEntry.notice]))
    ∧ (∀ s evs, s.closed = false → s.history.count HEntry.notice = 0 →
        (runRead s evs).1.history.count HEntry.notice ≤ 1
        ∧ (runRead s evs).2.count HEntry.notice ≤ 1) := by
  refine ⟨fun s => rfl, ?_, ?_, ?_⟩
  · intro s l h
    simp [stepRead, h]
  · intro s l h
    simp [stepRead, h]
  · intro s evs hc h0
    exact runRead_notice_aux evs (s, []) (fun _ => ⟨h0, rfl⟩)
      (show s.history.count HEntry.notice ≤ 1 by omega)
      (show List.count HEntry.notice ([] : List HEntry) ≤ 1 by decide)

/-- C4 witness: idempotence on a running session; the eof step on an
already-closed and on an open session; a natural-termination run ends with
at most one notice. -/
theorem c4_witness :
    close (close runningSession) = close runningSession
    ∧ stepRead (close runningSession, []) REv.eof = (close (close runningSession), [])
    ∧ stepRead (runningSession, []) REv.eof
        = (close { runningSession with
            history := runningSession.history ++ [HEntry.notice] }, [HEntry.notice])
    ∧ (runRead runningSession [REv.recv "hi", REv.eof]).1.history.count
        HEntry.notice ≤ 1
    ∧ (runRead runningSession [REv.recv "hi", REv.eof]).2.count HEntry.notice ≤ 1 := by
  have h := c4_amended_close_idempotent
  have h4 := h.2.2.2 runningSession [REv.recv "hi", REv.eof] rfl rfl
  exact ⟨h.1 runningSession, h.2.1 (close runningSession) [] rfl,
    h.2.2.1 runningSession [] rfl, h4.1, h4.2⟩

/-- C5 counterexample: a session key that is present but expired, alongside
a valid long-lived token in the query — `terminal_stream_ws` closes the
transport with 4003 without ever consulting the token, whereas under the
claimed order (key failure falling through to the token check) the
connection would be authenticated. -/
theorem c5_counterexample :
    wsAuthPass false (some "k") (some "T") [("k", 50)] (some "T") 100 = false
    ∧ claimedAuthPass false (some "k") (some "T") [("k", 50)] (some "T") 100 = true
    ∧ terminalStreamGate false (some "k") (some "T") [("k", 50)] (some "T") 100 true
        = WsOutcome.refused 4003 :=
  ⟨by decide, by decide, by decide⟩

/-- C5 (amended): the per-session gate resolves authentication as: no-auth
flag first; else, when a session key is supplied, that key alone decides —
an invalid or expired key closes with 4003 and the long-lived token (read
only from the `token` query parameter at this endpoint) is never consulted;
only when no key is supplied is the token checked.  Authentication failure
closes with 4003 and an unknown session id with 4004, two distinct codes. -/
theorem c5_amended_auth_order (key token : Option String) (store : KeyStore)
    (remodashToken : Option String) (now : ℤ) (found : Bool) :
    (terminalStreamGate true key token store remodashToken now found
      = if found then WsOutcome.accepted else WsOutcome.refused 4004)
    ∧ (pyTruthy key = true →
        (wsAuthPass false key token store remodashToken now
          = wsKeyValid store (key.getD "") now)
        ∧ (∀ token', wsAuthPass false key token' store remodashToken now
            = wsAuthPass false key token store remodashToken now))
    ∧ (pyTruthy key = false →
        wsAuthPass false key token store remodashToken now
          = wsTokenOk remodashToken token)
    ∧ (wsAuthPass false key token store remodashToken now = false →
        terminalStreamGate false key token store remodashToken now found
          = WsOutcome.refused 4003)
    ∧ (wsAuthPass false key token store remodashToken now = true →
        terminalStreamGate false key token store remodashToken now found
          = if found then WsOutcome.accepted else WsOutcome.refused 4004)
    ∧ WsOutcome.refused 4003 ≠ WsOutcome.refused 4004 := by
  refine ⟨?_, ?_, ?_, ?_, ?_, by decide⟩
  · cases found <;> simp [terminalStreamGate, wsAuthPass]
  · intro h
    exact ⟨by simp [wsAuthPass, h], fun token' => by simp [wsAuthPass, h]⟩
  · intro h
    simp [wsAuthPass, h]
  · intro h
    simp [terminalStreamGate, h]
  · intro h
    cases found <;> simp [terminalStreamGate, h]

/-- C5 witness: the no-auth flag accepts a found session; a supplied key
decides alone (whatever token rides along); with no key the token decides;
a bad key refuses 4003; a good key with an unknown session refuses 4004. -/
theorem c5_witness :
    (terminalStreamGate true (some "k") none [] none 0 true
      = if true then WsOutcome.accepted else WsOutcome.refused 4004)
    ∧ (wsAuthPass false (some "k") (some "T") [("k", 50)] (some "T") 100
        = wsKeyValid [("k", 50)] ((some "k").getD "") 100)
    ∧ (wsAuthPass false (some "k") (some "other") [("k", 50)] (some "T") 100
        = wsAuthPass false (some "k") (some "T") [("k", 50)] (some "T") 100)
    ∧ (wsAuthPass false none (some "T") [("k", 50)] (some "T") 100
        = wsTokenOk (some "T") (some "T"))
    ∧ (terminalStreamGate false (some "bad") none [("k", 50)] (some "T") 100 true
        = WsOutcome.refused 4003)
    ∧ (terminalStreamGate false (some "k") none [("k", 50)] (some "T") 40 false
        = if false then WsOutcome.accepted else WsOutcome.refused 4004) := by
  refine ⟨(c5_amended_auth_order (some "k") none [] none 0 true).1,
    ((c5_amended_auth_order (some "k") (some "T") [("k", 50)] (some "T") 100 true).2.1
      (by decide)).1,
    ((c5_amended_auth_order (some "k") (some "T") [("k", 50)] (some "T") 100 true).2.1
      (by decide)).2 (some "other"),
    (c5_amended_auth_order none (some "T") [("k", 50)] (some "T") 100 true).2.2.1
      (by decide),
    (c5_amended_auth_order (some "bad") none [("k", 50)] (some "T") 100 true).2.2.2.1
      (by decide),
    (c5_amended_auth_order (some "k") none [("k", 50)] (some "T") 40 false).2.2.2.2.1
      (by decide)⟩

/-- C10: in the receive loop, a frame `json.loads` cannot parse raises, as
does an object lacking a `"type"` key (or an `"input"` frame lacking
`"data"`); the raise ends the connection after that one frame and the
observer is detached in `finally`; a well-formed object whose `"type"`
value is neither `"input"` nor `"resize"` is silently ignored and the loop
continues, the connection's outcome being exactly that of the remaining
frames. -/
theorem c10_frame_handling :
    handleFrame none = Step.raise
    ∧ (∀ j, subscript j "type" = none → handleFrame (some j) = Step.raise)
    ∧ (∀ j tv, subscript j "type" = some tv →
        tv ≠ Json.str "input" → tv ≠ Json.str "resize" →
        handleFrame (some j) = Step.ignore)
    ∧ (∀ s w f fs, handleFrame f = Step.raise →
        (serverConnection s w (f :: fs)).consumed = 1
        ∧ w ∉ (serverConnection s w (f :: fs)).final.subscribers)
    ∧ (∀ s w f fs, handleFrame f = Step.ignore →
        (serverConnection s w (f :: fs)).final = (serverConnection s w fs).final
        ∧ (serverConnection s w (f :: fs)).consumed
            = (serverConnection s w fs).consumed + 1) := by
  refine ⟨rfl, ?_, ?_, ?_, ?_⟩
  · intro j h
    simp only [handleFrame, h]
  · intro j tv h h1 h2
    simp only [handleFrame, h]
    cases tv with
    | str sv =>
        have hs1 : sv ≠ "input" := fun hc => h1 (by rw [hc])
        have hs2 : sv ≠ "resize" := fun hc => h2 (by rw [hc])
        simp [hs1, hs2]
    | null => rfl
    | jbool b => rfl
    | num q => rfl
    | arr elts => rfl
    | obj fields => rfl
  · intro s w f fs h
    constructor
    · show (runFrames { s with subscribers := setAdd s.subscribers w } (f :: fs)).2 = 1
      simp [runFrames, h]
    · show w ∉ List.filter (fun x => x ≠ w)
        (runFrames { s with subscribers := setAdd s.subscribers w } (f :: fs)).1.subscribers
      exact not_mem_filter_ne w _
  · intro s w f fs h
    have hr : runFrames { s with subscribers := setAdd s.subscribers w } (f :: fs)
        = ((runFrames { s with subscribers := setAdd s.subscribers w } fs).1,
           (runFrames { s with subscribers := setAdd s.subscribers w } fs).2 + 1) := by
      simp [runFrames, h]
    have h1 : (runFrames { s with subscribers := setAdd s.subscribers w } (f :: fs)).1
        = (runFrames { s with subscribers := setAdd s.subscribers w } fs).1 := by
      rw [hr]
    have h2 : (runFrames { s with subscribers := setAdd s.subscribers w } (f :: fs)).2
        = (runFrames { s with subscribers := setAdd s.subscribers w } fs).2 + 1 := by
      rw [hr]
    constructor
    · show ({ (runFrames { s with subscribers := setAdd s.subscribers w } (f :: fs)).1 with
          subscribers := List.filter (fun x => x ≠ w)
            (runFrames { s with subscribers := setAdd s.subscribers w } (f :: fs)).1.subscribers }
        : SessionState)
        = { (runFrames { s with subscribers := setAdd s.subscribers w } fs).1 with
            subscribers := List.filter (fun x => x ≠ w)
              (runFrames { s with subscribers := setAdd s.subscribers w } fs).1.subscribers }
      rw [h1]
    · show (runFrames { s with subscribers := setAdd s.subscribers w } (f :: fs)).2
        = (runFrames { s with subscribers := setAdd s.subscribers w } fs).2 + 1
      exact h2

/-- C10 witness: a frame with no `"type"` key raises; `"type": 5` is
ignored; an unparsable frame as the first inbound frame ends the connection
with the observer detached; a `"type": "ping"` frame leaves the
connection's outcome to the remaining frames. -/
theorem c10_witness :
    handleFrame (some (Json.obj [("data", Json.str "x")])) = Step.raise
    ∧ handleFrame (some (Json.obj [("type", Json.num 5)])) = Step.ignore
    ∧ ((serverConnection runningSession 7 [none]).consumed = 1
        ∧ 7 ∉ (serverConnection runningSession 7 [none]).final.subscribers)
    ∧ ((serverConnection runningSession 7
          [some (Json.obj [("type", Json.str "ping")])]).final
        = (serverConnection runningSession 7 []).final
        ∧ (serverConnection runningSession 7
            [some (Json.obj [("type", Json.str "ping")])]).consumed
          = (serverConnection runningSession 7 []).consumed + 1) := by
  have h := c10_frame_handling
  exact ⟨h.2.1 (Json.obj [("data", Json.str "x")]) rfl,
    h.2.2.1 (Json.obj [("type", Json.num 5)]) (Json.num 5) rfl
      (fun hc => Json.noConfusion hc) (fun hc => Json.noConfusion hc),
    h.2.2.2.1 runningSession 7 none [] rfl,
    h.2.2.2.2 runningSession 7 (some (Json.obj [("type", Json.str "ping")])) [] rfl⟩

end RemoDash
